import Mathlib

/-!
Verification of `tri.named_struct` (src/lib/tri/named_struct/__init__.py) against its
natural-language specification.

The embedding models Python runtime values, errors and `dict` semantics shallowly:
a `dict` is an ordered association list with unique keys, lookup finds the first
matching key, assignment to a present key updates it in place and to an absent key
appends at the end.  Fallible Python code is embedded in `Except PyError`.
-/

set_option autoImplicit false

namespace TriNamedStruct

/-- Python runtime values, as far as the claims need them.  `obj id` stands for a
heap-allocated mutable object with identity `id`; two values are "the same object"
(Python `is`) exactly when they are equal `obj`s. -/
inductive Value where
  | vnone
  | int (n : Int)
  | str (s : String)
  | obj (id : Nat)
deriving DecidableEq, Repr

/-- Python exceptions raised by the code under verification. -/
inductive PyError where
  | valueError (msg : String)
  | keyError (key : String)
  | attributeError (msg : String)
  | typeError (msg : String)
deriving DecidableEq, Repr

instance instDecEqExcept {ε α : Type} [DecidableEq ε] [DecidableEq α] :
    DecidableEq (Except ε α) := fun x y =>
  match x, y with
  | .ok a, .ok b =>
    if h : a = b then .isTrue (by rw [h])
    else .isFalse (by intro hc; cases hc; exact h rfl)
  | .error a, .error b =>
    if h : a = b then .isTrue (by rw [h])
    else .isFalse (by intro hc; cases hc; exact h rfl)
  | .ok _, .error _ => .isFalse (by intro hc; cases hc)
  | .error _, .ok _ => .isFalse (by intro hc; cases hc)

/-- Keys of a `dict` modelled as an ordered association list. -/
def dictKeys {α : Type} (store : List (String × α)) : List String :=
  store.map Prod.fst

/-- Python `dict` lookup: the value at the first occurrence of the key, if any. -/
def dictGet {α : Type} : List (String × α) → String → Option α
  | [], _ => none
  | kv :: rest, k => if kv.1 = k then some kv.2 else dictGet rest k

/-- Python `dict.__setitem__`: update the (first) occurrence of a present key in
place, append an absent key at the end. -/
def dictSet {α : Type} : List (String × α) → String → α → List (String × α)
  | [], k, v => [(k, v)]
  | kv :: rest, k, v => if kv.1 = k then (kv.1, v) :: rest else kv :: dictSet rest k v

/-- Embeds `NamedStructField.__init__` (src lines 11-13): a field declaration carrying
a static default value, `None` when not given. -/
structure NamedStructField where
  default : Value
deriving DecidableEq, Repr

/-- The keyword-argument loop of `NamedStruct.__init__` (src lines 31-34): for each
keyword argument, fail if its name already has a value, else insert it. -/
def addKwargs (acc : List (String × Value)) :
    List (String × Value) → Except PyError (List (String × Value))
  | [] => .ok acc
  | kv :: rest =>
    if kv.1 ∈ dictKeys acc then
      .error (.valueError ("Field \x22" ++ kv.1 ++ "\x22 already given as positional argument"))
    else addKwargs (dictSet acc kv.1 kv.2) rest

/-- The membership sweep of `NamedStruct.__init__` (src lines 36-38): the first name in
the provisional mapping that is not a schema key, if any. -/
def firstUnknown (memberKeys : List String) : List (String × Value) → Option String
  | [] => none
  | kv :: rest => if kv.1 ∈ memberKeys then firstUnknown memberKeys rest else some kv.1

/-- Embeds `NamedStruct.__init__` (src lines 24-40).  `members` is the composed schema
(`Meta.members`), an ordered name-to-field mapping. -/
def NamedStruct.init (members : List (String × NamedStructField)) (args : List Value)
    (kwargs : List (String × Value)) : Except PyError (List (String × Value)) :=
  if members.length < args.length then
    .error (.valueError "Too many arguments")
  else
    match addKwargs ((dictKeys members).zip args) kwargs with
    | .error e => .error e
    | .ok values_by_name =>
      match firstUnknown (dictKeys members) values_by_name with
      | some bad => .error (.keyError bad)
      | none =>
        .ok (members.map (fun m => (m.1, (dictGet values_by_name m.1).getD m.2.default)))

/-- Embeds `NamedStruct.__getitem__` (src lines 42-45): reject a key that is not a
schema member, otherwise delegate to the underlying `dict` lookup. -/
def NamedStruct.getitem (members : List (String × NamedStructField))
    (store : List (String × Value)) (key : String) : Except PyError Value :=
  if key ∈ dictKeys members then
    match dictGet store key with
    | some v => .ok v
    | none => .error (.keyError key)
  else .error (.keyError key)

/-- Embeds `NamedStruct.__setitem__` (src lines 47-50): reject a key that is not a
schema member, otherwise store the value. -/
def NamedStruct.setitem (members : List (String × NamedStructField))
    (store : List (String × Value)) (key : String) (v : Value) :
    Except PyError (List (String × Value)) :=
  if key ∈ dictKeys members then .ok (dictSet store key v)
  else .error (.keyError key)

/-- The attribute-not-found message produced by `NamedStruct.__setattr__` (src line 56)
and by the container collaborator on attribute reads. -/
def noAttributeMsg (typename k : String) : String :=
  "\x27" ++ typename ++ "\x27 object has no attribute \x27" ++ k ++ "\x27"

/-- Embeds `NamedStruct.__setattr__` (src lines 52-56): delegate to `__setitem__` and
surface its `KeyError` as an `AttributeError` naming the type and the attribute. -/
def NamedStruct.setattr (typename : String) (members : List (String × NamedStructField))
    (store : List (String × Value)) (k : String) (v : Value) :
    Except PyError (List (String × Value)) :=
  match NamedStruct.setitem members store k v with
  | .error (.keyError _) => .error (.attributeError (noAttributeMsg typename k))
  | r => r

/-- Modelled from the spec: attribute-style reads are supplied by the external
ordered-container collaborator (`tri.struct.Struct`, excluded from src; spec sections 4.4
and 6): an attribute read performs the same lookup as a subscript read and surfaces a
failed lookup as an attribute-not-found error. -/
def Struct.getattr (typename : String) (members : List (String × NamedStructField))
    (store : List (String × Value)) (k : String) : Except PyError Value :=
  match NamedStruct.getitem members store k with
  | .error (.keyError _) => .error (.attributeError (noAttributeMsg typename k))
  | r => r

/-- The argument of `named_struct` (src line 59): either an ordered sequence of field
names or a single comma/whitespace separated string. -/
inductive FieldNames where
  | names (l : List String)
  | commaString (s : String)

/-- Python `str.split()` on a character list: maximal runs of non-whitespace
characters, separators dropped. -/
def splitWords (l : List Char) : List (List Char) :=
  (l.foldr
    (fun c acc =>
      if c.isWhitespace then [] :: acc
      else
        match acc with
        | [] => [[c]]
        | w :: ws => (c :: w) :: ws)
    []).filter (fun w => ¬ w.isEmpty)

/-- The field-name normalisation of `named_struct` (src lines 61-63): a string input has
commas replaced by spaces and is then split on whitespace; a sequence input is used
as given. -/
def parseFieldNames : FieldNames → List String
  | .names l => l
  | .commaString s =>
    (splitWords (s.data.map (fun c => if c = ',' then ' ' else c))).map String.mk

/-- The class-body `dict` of `named_struct` (src line 66): a later occurrence of a
name overwrites an earlier one, and the surviving field object keeps its own creation
position, so only the last occurrence of each name remains. -/
def dedupKeepLast : List String → List String
  | [] => []
  | n :: rest => if n ∈ rest then dedupKeepLast rest else n :: dedupKeepLast rest

/-- Embeds `named_struct` (src lines 59-66): builds a subtype, i.e. a type name paired
with an ordered schema mapping each given field name to a default-`None` field. -/
def named_struct (field_names : FieldNames) (typename : String) :
    String × List (String × NamedStructField) :=
  (typename, (dedupKeepLast (parseFieldNames field_names)).map (fun n => (n, ⟨Value.vnone⟩)))

/-- `named_struct` with the `typename` parameter left at its default (src line 59). -/
def named_struct_default (field_names : FieldNames) :
    String × List (String × NamedStructField) :=
  named_struct field_names "NamedStruct"

/-- One post-construction access on a struct instance, in either access style. -/
inductive StructOp where
  | setItem (k : String) (v : Value)
  | setAttr (k : String) (v : Value)
  | getItem (k : String)
  | getAttr (k : String)

/-- The state after one operation: a failed operation raises and leaves the stored
mapping unchanged; reads never change it. -/
def applyOp (typename : String) (members : List (String × NamedStructField))
    (store : List (String × Value)) : StructOp → List (String × Value)
  | .setItem k v =>
    match NamedStruct.setitem members store k v with
    | .ok s => s
    | .error _ => store
  | .setAttr k v =>
    match NamedStruct.setattr typename members store k v with
    | .ok s => s
    | .error _ => store
  | .getItem _ => store
  | .getAttr _ => store

/-- The state after a sequence of post-construction operations. -/
def runOps (typename : String) (members : List (String × NamedStructField))
    (store : List (String × Value)) (ops : List StructOp) : List (String × Value) :=
  ops.foldl (applyOp typename members) store

/-- Modelled from the spec: the released field descriptor also carries an optional
`default_factory` (spec sections 3 and 4.1; absent from the archived source, which only
its tests exercise).  A factory is a zero-argument producer returning a freshly
allocated object on every call, so the model records only whether a field has one;
invoking it draws a fresh `Value.obj` identity from an allocation counter. -/
structure NamedStructFieldF where
  default : Value
  has_factory : Bool
deriving DecidableEq, Repr

/-- Modelled from the spec: step 5 of the construction binder (spec section 4.3) with
factories.  Every schema field absent from the provisional mapping receives its
factory's fresh result when it has one, else its static default; `ctr` is the
allocation counter, threaded left to right and returned. -/
def fillDefaults (values_by_name : List (String × Value)) :
    Nat → List (String × NamedStructFieldF) → List (String × Value) × Nat
  | ctr, [] => ([], ctr)
  | ctr, m :: ms =>
    match dictGet values_by_name m.1 with
    | some v =>
      let r := fillDefaults values_by_name ctr ms
      ((m.1, v) :: r.1, r.2)
    | none =>
      if m.2.has_factory then
        let r := fillDefaults values_by_name (ctr + 1) ms
        ((m.1, Value.obj ctr) :: r.1, r.2)
      else
        let r := fillDefaults values_by_name ctr ms
        ((m.1, m.2.default) :: r.1, r.2)

/-- Modelled from the spec: the released construction binder (spec section 4.3), equal
to `NamedStruct.init` except that defaulting goes through `fillDefaults` so that
`default_factory` fields are filled by a fresh factory call per construction. -/
def NamedStruct.initF (members : List (String × NamedStructFieldF)) (args : List Value)
    (kwargs : List (String × Value)) (ctr : Nat) :
    Except PyError (List (String × Value) × Nat) :=
  if members.length < args.length then
    .error (.valueError "Too many arguments")
  else
    match addKwargs ((dictKeys members).zip args) kwargs with
    | .error e => .error e
    | .ok values_by_name =>
      match firstUnknown (dictKeys members) values_by_name with
      | some bad => .error (.keyError bad)
      | none => .ok (fillDefaults values_by_name ctr members)

/-- Modelled from the spec: subscript-style write on a frozen instance
(`NamedFrozenStruct`, spec section 4.5; absent from the archived source, which only its
tests exercise): every write attempt after construction fails with an immutability
error, whether or not the name is a schema key. -/
def NamedFrozenStruct.setitem (_store : List (String × Value)) (_k : String) (_v : Value) :
    Except PyError (List (String × Value)) :=
  .error (.typeError "FrozenStruct instances are immutable")

/-- Modelled from the spec: attribute-style write on a frozen instance, rejected
exactly like the subscript form (spec section 4.5). -/
def NamedFrozenStruct.setattr (_store : List (String × Value)) (_k : String) (_v : Value) :
    Except PyError (List (String × Value)) :=
  .error (.typeError "FrozenStruct instances are immutable")

/-- The state of a frozen instance after one operation: failed writes raise and leave
the stored mapping unchanged; reads never change it. -/
def frozenApplyOp (store : List (String × Value)) : StructOp → List (String × Value)
  | .setItem k v =>
    match NamedFrozenStruct.setitem store k v with
    | .ok s => s
    | .error _ => store
  | .setAttr k v =>
    match NamedFrozenStruct.setattr store k v with
    | .ok s => s
    | .error _ => store
  | .getItem _ => store
  | .getAttr _ => store

/-- The state of a frozen instance after a sequence of operations. -/
def frozenRunOps (store : List (String × Value)) (ops : List StructOp) :
    List (String × Value) :=
  ops.foldl frozenApplyOp store

/-- `startsWith pre l`: `pre` is an initial segment of `l`. -/
def startsWith : List Char → List Char → Bool
  | [], _ => true
  | _ :: _, [] => false
  | c :: cs, d :: ds => c == d && startsWith cs ds

/-- `containsRun sub l`: `sub` occurs contiguously inside `l`. -/
def containsRun (sub : List Char) : List Char → Bool
  | [] => sub.isEmpty
  | c :: cs => startsWith sub (c :: cs) || containsRun sub cs

/-- Whether the string `sub` occurs inside the string `s`; used to state what an error
message does and does not report. -/
def strContains (s sub : String) : Bool :=
  containsRun sub.data s.data

/-! Basic `dict` lemmas. -/

theorem dictGet_eq_none {α : Type} (l : List (String × α)) (k : String) :
    dictGet l k = none ↔ k ∉ dictKeys l := by
  induction l with
  | nil => simp [dictGet, dictKeys]
  | cons kv rest ih =>
    by_cases h : kv.1 = k
    · simp [dictGet, dictKeys, h]
    · have hne : ¬ k = kv.1 := fun hc => h hc.symm
      simp only [dictGet, dictKeys, List.map_cons, List.mem_cons, if_neg h, not_or]
      simp only [dictKeys] at ih
      rw [ih]
      exact (and_iff_right hne).symm

theorem dictGet_dictSet_self {α : Type} (l : List (String × α)) (k : String) (v : α) :
    dictGet (dictSet l k v) k = some v := by
  induction l with
  | nil => simp [dictGet, dictSet]
  | cons kv rest ih =>
    by_cases h : kv.1 = k
    · simp [dictGet, dictSet, h]
    · simp [dictGet, dictSet, h, ih]

theorem dictGet_dictSet_ne {α : Type} (l : List (String × α)) (k k2 : String) (v : α)
    (h : k2 ≠ k) : dictGet (dictSet l k v) k2 = dictGet l k2 := by
  have hne : ¬ k = k2 := fun hc => h hc.symm
  induction l with
  | nil => simp [dictGet, dictSet, hne]
  | cons kv rest ih =>
    by_cases hk : kv.1 = k
    · have hk2 : ¬ kv.1 = k2 := fun hc => h (hc.symm.trans hk)
      simp [dictGet, dictSet, if_pos hk, hk2, hne]
    · by_cases hk2 : kv.1 = k2
      · simp [dictGet, dictSet, if_neg hk, hk2, h]
      · simp [dictGet, dictSet, if_neg hk, hk2, ih]

theorem dictKeys_dictSet_mem {α : Type} (l : List (String × α)) (k : String) (v : α)
    (h : k ∈ dictKeys l) : dictKeys (dictSet l k v) = dictKeys l := by
  induction l with
  | nil => simp [dictKeys] at h
  | cons kv rest ih =>
    by_cases hk : kv.1 = k
    · simp [dictSet, dictKeys, hk]
    · have hmem : k ∈ dictKeys rest := by
        simp only [dictKeys, List.map_cons, List.mem_cons] at h
        rcases h with h1 | h1
        · exact absurd h1.symm hk
        · exact h1
      have h2 := ih hmem
      simp only [dictSet, if_neg hk, dictKeys, List.map_cons] at h2 ⊢
      rw [h2]

theorem dictSet_not_mem {α : Type} (l : List (String × α)) (k : String) (v : α)
    (h : k ∉ dictKeys l) : dictSet l k v = l ++ [(k, v)] := by
  induction l with
  | nil => simp [dictSet]
  | cons kv rest ih =>
    simp only [dictKeys, List.map_cons, List.mem_cons] at h
    push_neg at h
    have hk : ¬ kv.1 = k := fun hc => h.1 hc.symm
    simp [dictSet, hk, ih h.2]

/-! Concrete instances used by witnesses. -/

def exMembers : List (String × NamedStructField) := [("foo", ⟨Value.vnone⟩)]

def exMembers2 : List (String × NamedStructField) :=
  [("foo", ⟨Value.vnone⟩), ("bar", ⟨Value.vnone⟩)]

def exStore : List (String × Value) := [("foo", Value.int 17)]

/-- C1: for a name that is not a schema key, reading or writing attribute-style fails
with an attribute-not-found error and reading or writing subscript-style fails with a
lookup error; for a schema key, a read returns the stored value; an attribute-style
access fails exactly when the corresponding subscript-style access fails, i.e. both
styles perform the same underlying schema-membership check. -/
theorem C1_uniform_field_access (tn : String) (members : List (String × NamedStructField))
    (store : List (String × Value)) (k : String) (v w : Value) :
    (k ∉ dictKeys members →
      NamedStruct.getitem members store k = .error (.keyError k) ∧
      NamedStruct.setitem members store k v = .error (.keyError k) ∧
      Struct.getattr tn members store k = .error (.attributeError (noAttributeMsg tn k)) ∧
      NamedStruct.setattr tn members store k v =
        .error (.attributeError (noAttributeMsg tn k))) ∧
    (k ∈ dictKeys members → dictGet store k = some w →
      NamedStruct.getitem members store k = .ok w ∧
      Struct.getattr tn members store k = .ok w) ∧
    ((∃ e, Struct.getattr tn members store k = .error e) ↔
      (∃ e, NamedStruct.getitem members store k = .error e)) ∧
    ((∃ e, NamedStruct.setattr tn members store k v = .error e) ↔
      (∃ e, NamedStruct.setitem members store k v = .error e)) := by
  refine ⟨?_, ?_, ?_, ?_⟩
  · intro hk
    simp [NamedStruct.getitem, NamedStruct.setitem, Struct.getattr, NamedStruct.setattr, hk]
  · intro hk hw
    simp [NamedStruct.getitem, Struct.getattr, hk, hw]
  · by_cases hk : k ∈ dictKeys members
    · cases hw : dictGet store k with
      | some w2 => simp [NamedStruct.getitem, Struct.getattr, hk, hw]
      | none => simp [NamedStruct.getitem, Struct.getattr, hk, hw]
    · simp [NamedStruct.getitem, Struct.getattr, hk]
  · by_cases hk : k ∈ dictKeys members
    · simp [NamedStruct.setitem, NamedStruct.setattr, hk]
    · simp [NamedStruct.setitem, NamedStruct.setattr, hk]

/-- Witness for C1 on the schema `[foo]` with stored value `foo = 17`: accessing `bar`
fails in the style-appropriate way and reading `foo` returns 17. -/
theorem C1_uniform_field_access_witness :
    NamedStruct.getitem exMembers exStore "bar" = .error (.keyError "bar") ∧
    NamedStruct.setattr "MyNamedStruct" exMembers exStore "bar" Value.vnone =
      .error (.attributeError (noAttributeMsg "MyNamedStruct" "bar")) ∧
    NamedStruct.getitem exMembers exStore "foo" = .ok (Value.int 17) :=
  ⟨((C1_uniform_field_access "MyNamedStruct" exMembers exStore "bar"
      Value.vnone Value.vnone).1 (by decide)).1,
   ((C1_uniform_field_access "MyNamedStruct" exMembers exStore "bar"
      Value.vnone Value.vnone).1 (by decide)).2.2.2,
   ((C1_uniform_field_access "MyNamedStruct" exMembers exStore "foo"
      Value.vnone (Value.int 17)).2.1 (by decide) (by decide)).1⟩

/-- C2: the claim says a construction call with more positional arguments than schema
fields fails with an error reporting the type name, the maximum allowed and the number
given.  The code raises `ValueError("Too many arguments")`, which reports none of these
(its own test instead expects "MyNamedStruct() takes at most 2 arguments (3 given)"):
evaluated here on a two-field schema called with three positional arguments. -/
theorem C2_too_many_args_bug :
    NamedStruct.init exMembers2 [Value.int 1, Value.int 2, Value.int 3] [] =
      .error (.valueError "Too many arguments") ∧
    strContains "Too many arguments" "MyNamedStruct" = false ∧
    strContains "Too many arguments" "2" = false ∧
    strContains "Too many arguments" "3" = false := by
  decide

/-- C3: the claim says supplying a field both positionally and by keyword fails with an
error naming both the field and the type.  The code's message `Field "foo" already given
as positional argument` names the field but no type (its own test instead expects
"MyNamedStruct() got multiple values for keyword argument 'foo'"): evaluated here on a
two-field schema of a type called `MyNamedStruct`. -/
theorem C3_duplicate_value_bug :
    NamedStruct.init exMembers2 [Value.int 1] [("foo", Value.int 2)] =
      .error (.valueError "Field \x22foo\x22 already given as positional argument") ∧
    strContains "Field \x22foo\x22 already given as positional argument" "foo" = true ∧
    strContains "Field \x22foo\x22 already given as positional argument" "MyNamedStruct"
      = false := by
  decide

/-! Inversion and helper lemmas for the construction binder. -/

theorem init_ok_inv (members : List (String × NamedStructField)) (args : List Value)
    (kwargs : List (String × Value)) (store : List (String × Value))
    (h : NamedStruct.init members args kwargs = .ok store) :
    ∃ values_by_name, ¬ members.length < args.length ∧
      addKwargs ((dictKeys members).zip args) kwargs = .ok values_by_name ∧
      firstUnknown (dictKeys members) values_by_name = none ∧
      store = members.map
        (fun m => (m.1, (dictGet values_by_name m.1).getD m.2.default)) := by
  unfold NamedStruct.init at h
  by_cases hlen : members.length < args.length
  · rw [if_pos hlen] at h
    exact Except.noConfusion h
  · rw [if_neg hlen] at h
    cases haddk : addKwargs ((dictKeys members).zip args) kwargs with
    | error e => rw [haddk] at h; exact Except.noConfusion h
    | ok vbn =>
      rw [haddk] at h
      dsimp only at h
      cases hf : firstUnknown (dictKeys members) vbn with
      | some bad => rw [hf] at h; exact Except.noConfusion h
      | none =>
        rw [hf] at h
        exact ⟨vbn, hlen, rfl, hf, (Except.ok.inj h).symm⟩

theorem init_ok_keys (members : List (String × NamedStructField)) (args : List Value)
    (kwargs : List (String × Value)) (store : List (String × Value))
    (h : NamedStruct.init members args kwargs = .ok store) :
    dictKeys store = dictKeys members := by
  obtain ⟨vbn, -, -, -, hstore⟩ := init_ok_inv members args kwargs store h
  subst hstore
  simp [dictKeys, List.map_map, Function.comp]

theorem firstUnknown_none_of_forall (memberKeys : List String)
    (l : List (String × Value)) (h : ∀ kv ∈ l, kv.1 ∈ memberKeys) :
    firstUnknown memberKeys l = none := by
  induction l with
  | nil => rfl
  | cons kv rest ih =>
    have hm : kv.1 ∈ memberKeys := h kv (List.mem_cons_self kv rest)
    simp only [firstUnknown, if_pos hm]
    exact ih (fun kv2 h2 => h kv2 (List.mem_cons_of_mem kv h2))

theorem map_fill_zip (members : List (String × NamedStructField)) (args : List Value)
    (hlen : args.length ≤ members.length) (hnd : (dictKeys members).Nodup) :
    members.map
        (fun m => (m.1, (dictGet ((dictKeys members).zip args) m.1).getD m.2.default))
      = (dictKeys members).zip args
        ++ (members.drop args.length).map (fun m => (m.1, m.2.default)) := by
  induction members generalizing args with
  | nil => simp [dictKeys]
  | cons m ms ih =>
    cases args with
    | nil => simp [dictGet, dictKeys]
    | cons a as =>
      have hnd2 : (dictKeys ms).Nodup := (List.nodup_cons.mp hnd).2
      have hm : m.1 ∉ dictKeys ms := (List.nodup_cons.mp hnd).1
      have hlen2 : as.length ≤ ms.length := by
        simpa using Nat.succ_le_succ_iff.mp (by simpa using hlen)
      have hcongr :
          ms.map (fun x =>
              (x.1, (dictGet ((m.1, a) :: (dictKeys ms).zip as) x.1).getD x.2.default))
            = ms.map (fun x =>
              (x.1, (dictGet ((dictKeys ms).zip as) x.1).getD x.2.default)) := by
        apply List.map_congr_left
        intro x hx
        have hxk : x.1 ∈ dictKeys ms := List.mem_map_of_mem Prod.fst hx
        have hne : ¬ m.1 = x.1 := fun hc => hm (hc ▸ hxk)
        simp [dictGet, hne]
      have hdk : dictKeys (m :: ms) = m.1 :: dictKeys ms := rfl
      rw [hdk, List.zip_cons_cons, List.length_cons, List.drop_succ_cons, List.map_cons,
        List.cons_append]
      congr 1
      · simp [dictGet]
      · rw [hcongr, ih as hlen2 hnd2]

/-- C5: with at most as many positional arguments as schema fields (and no keywords),
construction succeeds and binds the i-th positional argument to the i-th schema field in
schema order — the result is the schema keys zipped with the arguments, followed by the
remaining fields with their defaults. -/
theorem C5_positional_binding (members : List (String × NamedStructField))
    (args : List Value) (hlen : args.length ≤ members.length)
    (hnd : (dictKeys members).Nodup) :
    NamedStruct.init members args [] =
      .ok ((dictKeys members).zip args
        ++ (members.drop args.length).map (fun m => (m.1, m.2.default))) := by
  unfold NamedStruct.init
  rw [if_neg (Nat.not_lt.mpr hlen)]
  have haddk : addKwargs ((dictKeys members).zip args) [] =
      .ok ((dictKeys members).zip args) := rfl
  rw [haddk]
  have hfu : firstUnknown (dictKeys members) ((dictKeys members).zip args) = none := by
    apply firstUnknown_none_of_forall
    intro kv hkv
    exact (List.of_mem_zip hkv).1
  dsimp only
  rw [hfu]
  rw [map_fill_zip members args hlen hnd]

/-- Witness for C5: for the schema `[foo, bar]`, positional construction with `(1, 2)`
yields exactly the mapping `{foo: 1, bar: 2}`. -/
theorem C5_positional_binding_witness :
    NamedStruct.init exMembers2 [Value.int 1, Value.int 2] [] =
      .ok [("foo", Value.int 1), ("bar", Value.int 2)] :=
  (C5_positional_binding exMembers2 [Value.int 1, Value.int 2]
    (by decide) (by decide)).trans (by decide)

/-! Lemmas for the keyword paths of the binder. -/

theorem addKwargs_ok_of_disjoint (kwargs : List (String × Value)) :
    ∀ acc : List (String × Value), (dictKeys kwargs).Nodup →
      (∀ kv ∈ kwargs, kv.1 ∉ dictKeys acc) →
      addKwargs acc kwargs = .ok (acc ++ kwargs) := by
  induction kwargs with
  | nil => intro acc _ _; simp [addKwargs]
  | cons kv rest ih =>
    intro acc hnd hdisj
    have hkv : kv.1 ∉ dictKeys acc := hdisj kv (List.mem_cons_self kv rest)
    have hnd2 := List.nodup_cons.mp hnd
    simp only [addKwargs, if_neg hkv]
    rw [dictSet_not_mem acc kv.1 kv.2 hkv]
    have hrest : ∀ kv2 ∈ rest, kv2.1 ∉ dictKeys (acc ++ [(kv.1, kv.2)]) := by
      intro kv2 h2
      have h2k : kv2.1 ∈ dictKeys rest := List.mem_map_of_mem Prod.fst h2
      have hne : kv2.1 ≠ kv.1 := fun hc => hnd2.1 (hc ▸ h2k)
      simp only [dictKeys, List.map_append, List.mem_append, List.map_cons,
        List.map_nil, List.mem_singleton]
      push_neg
      exact ⟨hdisj kv2 (List.mem_cons_of_mem kv h2), hne⟩
    rw [ih (acc ++ [(kv.1, kv.2)]) hnd2.2 hrest]
    simp

theorem firstUnknown_append_left (memberKeys : List String)
    (l1 l2 : List (String × Value)) (h : ∀ kv ∈ l1, kv.1 ∈ memberKeys) :
    firstUnknown memberKeys (l1 ++ l2) = firstUnknown memberKeys l2 := by
  induction l1 with
  | nil => rfl
  | cons kv rest ih =>
    have hm : kv.1 ∈ memberKeys := h kv (List.mem_cons_self kv rest)
    simp only [List.cons_append, firstUnknown, if_pos hm]
    exact ih (fun kv2 h2 => h kv2 (List.mem_cons_of_mem kv h2))

theorem firstUnknown_some_of_exists (memberKeys : List String) :
    ∀ l : List (String × Value), ∀ kv ∈ l, kv.1 ∉ memberKeys →
      ∃ bad, firstUnknown memberKeys l = some bad ∧ bad ∉ memberKeys ∧
        ∃ w, (bad, w) ∈ l := by
  intro l
  induction l with
  | nil => intro kv h; exact absurd h (List.not_mem_nil kv)
  | cons c rest ih =>
    intro kv hkv hnot
    by_cases hc : c.1 ∈ memberKeys
    · have hkvr : kv ∈ rest := by
        rcases List.mem_cons.mp hkv with he | hr
        · exact absurd (he ▸ hc) hnot
        · exact hr
      obtain ⟨bad, h1, h2, w, h3⟩ := ih kv hkvr hnot
      exact ⟨bad, by simp only [firstUnknown, if_pos hc]; exact h1, h2,
        w, List.mem_cons_of_mem c h3⟩
    · exact ⟨c.1, by simp only [firstUnknown, if_neg hc], hc,
        c.2, List.mem_cons_self c rest⟩

/-- C4: a construction call supplying a keyword argument whose name is not a schema key
(with keyword names pairwise distinct and none duplicating a positionally bound field)
fails with a `KeyError` naming an offending keyword. -/
theorem C4_unexpected_keyword (members : List (String × NamedStructField))
    (args : List Value) (kwargs : List (String × Value)) (bad : String) (w : Value)
    (hlen : args.length ≤ members.length)
    (hnk : (dictKeys kwargs).Nodup)
    (hdisj : ∀ kv ∈ kwargs, kv.1 ∉ dictKeys ((dictKeys members).zip args))
    (hbad : (bad, w) ∈ kwargs) (hbm : bad ∉ dictKeys members) :
    ∃ k2 w2, (k2, w2) ∈ kwargs ∧ k2 ∉ dictKeys members ∧
      NamedStruct.init members args kwargs = .error (.keyError k2) := by
  have haddk := addKwargs_ok_of_disjoint kwargs ((dictKeys members).zip args) hnk hdisj
  obtain ⟨k2, hfu, hk2, w2, hw2⟩ :=
    firstUnknown_some_of_exists (dictKeys members) kwargs (bad, w) hbad hbm
  refine ⟨k2, w2, hw2, hk2, ?_⟩
  unfold NamedStruct.init
  rw [if_neg (Nat.not_lt.mpr hlen), haddk]
  dsimp only
  rw [firstUnknown_append_left (dictKeys members) ((dictKeys members).zip args) kwargs
    (fun kv hkv => (List.of_mem_zip hkv).1)]
  rw [hfu]

/-- Witness for C4: constructing the `[foo, bar]` schema with keywords
`foo=17, bar=42, boink=25` fails with a `KeyError` naming `boink`. -/
theorem C4_unexpected_keyword_witness :
    ∃ k2 w2,
      (k2, w2) ∈ [("foo", Value.int 17), ("bar", Value.int 42), ("boink", Value.int 25)] ∧
      k2 ∉ dictKeys exMembers2 ∧
      NamedStruct.init exMembers2 []
        [("foo", Value.int 17), ("bar", Value.int 42), ("boink", Value.int 25)] =
        .error (.keyError k2) :=
  C4_unexpected_keyword exMembers2 []
    [("foo", Value.int 17), ("bar", Value.int 42), ("boink", Value.int 25)]
    "boink" (Value.int 25) (by decide) (by decide) (by decide) (by decide) (by decide)

/-! Lemmas about the write paths. -/

theorem setitem_ok_inv (members : List (String × NamedStructField))
    (store s2 : List (String × Value)) (k : String) (v : Value)
    (h : NamedStruct.setitem members store k v = .ok s2) :
    k ∈ dictKeys members ∧ s2 = dictSet store k v := by
  unfold NamedStruct.setitem at h
  by_cases hk : k ∈ dictKeys members
  · rw [if_pos hk] at h
    exact ⟨hk, (Except.ok.inj h).symm⟩
  · rw [if_neg hk] at h
    exact Except.noConfusion h

theorem setattr_ok_iff (tn : String) (members : List (String × NamedStructField))
    (store s2 : List (String × Value)) (k : String) (v : Value) :
    NamedStruct.setattr tn members store k v = .ok s2 ↔
      NamedStruct.setitem members store k v = .ok s2 := by
  unfold NamedStruct.setattr
  cases hs : NamedStruct.setitem members store k v with
  | ok s => simp
  | error e => cases e <;> simp

theorem applyOp_keys (tn : String) (members : List (String × NamedStructField))
    (store : List (String × Value)) (op : StructOp)
    (h : dictKeys store = dictKeys members) :
    dictKeys (applyOp tn members store op) = dictKeys members := by
  have hset : ∀ k v, dictKeys
      (match NamedStruct.setitem members store k v with
        | .ok s => s
        | .error _ => store) = dictKeys members := by
    intro k v
    cases hs : NamedStruct.setitem members store k v with
    | error e => exact h
    | ok s2 =>
      obtain ⟨hk, hs2⟩ := setitem_ok_inv members store s2 k v hs
      rw [hs2, dictKeys_dictSet_mem store k v (h.symm ▸ hk)]
      exact h
  cases op with
  | setItem k v => exact hset k v
  | setAttr k v =>
    simp only [applyOp]
    cases hs : NamedStruct.setattr tn members store k v with
    | error e => exact h
    | ok s2 =>
      have hsi := (setattr_ok_iff tn members store s2 k v).mp hs
      obtain ⟨hk, hs2⟩ := setitem_ok_inv members store s2 k v hsi
      rw [hs2, dictKeys_dictSet_mem store k v (h.symm ▸ hk)]
      exact h
  | getItem k => exact h
  | getAttr k => exact h

theorem runOps_keys (tn : String) (members : List (String × NamedStructField))
    (ops : List StructOp) :
    ∀ store : List (String × Value), dictKeys store = dictKeys members →
      dictKeys (runOps tn members store ops) = dictKeys members := by
  induction ops with
  | nil => intro store h; exact h
  | cons op rest ih =>
    intro store h
    exact ih (applyOp tn members store op) (applyOp_keys tn members store op h)

/-- C7: after any successful construction and any sequence of attribute-style and
subscript-style operations, the instance's key set equals exactly the schema's key set:
no field is ever added, removed, or left absent. -/
theorem C7_keyset_invariant (tn : String) (members : List (String × NamedStructField))
    (args : List Value) (kwargs : List (String × Value)) (store0 : List (String × Value))
    (h : NamedStruct.init members args kwargs = .ok store0) (ops : List StructOp) :
    dictKeys (runOps tn members store0 ops) = dictKeys members :=
  runOps_keys tn members ops store0 (init_ok_keys members args kwargs store0 h)

/-- Witness for C7 on the schema `[foo, bar]`: construct with one positional argument
and run a mix of valid and invalid writes in both styles; the key set stays
`[foo, bar]`. -/
theorem C7_keyset_invariant_witness :
    dictKeys (runOps "MyNamedStruct" exMembers2
      [("foo", Value.int 1), ("bar", Value.vnone)]
      [StructOp.setItem "foo" (Value.int 5), StructOp.setAttr "baz" (Value.int 9),
       StructOp.setAttr "bar" (Value.int 7), StructOp.setItem "quux" (Value.int 3),
       StructOp.getItem "foo", StructOp.getAttr "nope"]) = dictKeys exMembers2 :=
  C7_keyset_invariant "MyNamedStruct" exMembers2 [Value.int 1] []
    [("foo", Value.int 1), ("bar", Value.vnone)] (by decide)
    [StructOp.setItem "foo" (Value.int 5), StructOp.setAttr "baz" (Value.int 9),
     StructOp.setAttr "bar" (Value.int 7), StructOp.setItem "quux" (Value.int 3),
     StructOp.getItem "foo", StructOp.getAttr "nope"]

/-- C10: after a successful write of `v` to a declared field `k` — through either
access style — reading `k` back (in either style) returns `v`, and the stored value of
every other name is unchanged. -/
theorem C10_write_frame (tn : String) (members : List (String × NamedStructField))
    (store s2 : List (String × Value)) (k : String) (v : Value)
    (h : NamedStruct.setitem members store k v = .ok s2 ∨
         NamedStruct.setattr tn members store k v = .ok s2) :
    NamedStruct.getitem members s2 k = .ok v ∧
    Struct.getattr tn members s2 k = .ok v ∧
    ∀ k2, k2 ≠ k → dictGet s2 k2 = dictGet store k2 := by
  have hset : NamedStruct.setitem members store k v = .ok s2 := by
    rcases h with h | h
    · exact h
    · exact (setattr_ok_iff tn members store s2 k v).mp h
  obtain ⟨hk, hs2⟩ := setitem_ok_inv members store s2 k v hset
  subst hs2
  refine ⟨?_, ?_, ?_⟩
  · simp [NamedStruct.getitem, hk, dictGet_dictSet_self]
  · simp [Struct.getattr, NamedStruct.getitem, hk, dictGet_dictSet_self]
  · intro k2 hne
    exact dictGet_dictSet_ne store k k2 v hne

/-- Witness for C10: writing `foo := 5` on a `[foo, bar]` instance makes reads of `foo`
return 5 and leaves `bar` untouched. -/
theorem C10_write_frame_witness :
    NamedStruct.getitem exMembers2 [("foo", Value.int 5), ("bar", Value.int 42)] "foo"
      = .ok (Value.int 5) ∧
    dictGet [("foo", Value.int 5), ("bar", Value.int 42)] "bar"
      = dictGet [("foo", Value.int 17), ("bar", Value.int 42)] "bar" :=
  ⟨(C10_write_frame "MyNamedStruct" exMembers2
      [("foo", Value.int 17), ("bar", Value.int 42)]
      [("foo", Value.int 5), ("bar", Value.int 42)] "foo" (Value.int 5)
      (Or.inl (by decide))).1,
   (C10_write_frame "MyNamedStruct" exMembers2
      [("foo", Value.int 17), ("bar", Value.int 42)]
      [("foo", Value.int 5), ("bar", Value.int 42)] "foo" (Value.int 5)
      (Or.inl (by decide))).2.2 "bar" (by decide)⟩

theorem dedupKeepLast_eq_self (l : List String) (h : l.Nodup) : dedupKeepLast l = l := by
  induction l with
  | nil => rfl
  | cons n rest ih =>
    have h2 := List.nodup_cons.mp h
    simp [dedupKeepLast, h2.1, ih h2.2]

/-- C8: for a field-name collection given as a sequence or as a comma/whitespace
separated string, with an optional type name defaulting to a generic one, the ad-hoc
factory returns a subtype whose schema is exactly those names in the given order, and
constructing it with no arguments yields an instance whose keys are the given names and
whose values are all the default sentinel `None`. -/
theorem C8_adhoc_factory (fns : FieldNames) (tn : String)
    (hnd : (parseFieldNames fns).Nodup) :
    (named_struct fns tn).1 = tn ∧
    named_struct_default fns = named_struct fns "NamedStruct" ∧
    dictKeys (named_struct fns tn).2 = parseFieldNames fns ∧
    NamedStruct.init (named_struct fns tn).2 [] [] =
      .ok ((parseFieldNames fns).map (fun n => (n, Value.vnone))) := by
  refine ⟨rfl, rfl, ?_, ?_⟩
  · simp only [named_struct, dictKeys, List.map_map, dedupKeepLast_eq_self _ hnd]
    exact List.map_id _
  · unfold NamedStruct.init
    rw [if_neg (by simp)]
    rw [List.zip_nil_right]
    have haddk : addKwargs [] ([] : List (String × Value)) = .ok [] := rfl
    rw [haddk]
    dsimp only
    have hfu : firstUnknown (dictKeys (named_struct fns tn).2) [] = none := rfl
    rw [hfu]
    simp [named_struct, dictGet, List.map_map, Function.comp,
      dedupKeepLast_eq_self _ hnd]

/-- Witness for C8: `named_struct` on the string `"foo, bar"`: the schema keys are
`[foo, bar]` in order, and no-argument construction yields both fields set to `None`. -/
theorem C8_adhoc_factory_witness :
    dictKeys (named_struct (.commaString "foo, bar") "SomeName").2 = ["foo", "bar"] ∧
    NamedStruct.init (named_struct (.commaString "foo, bar") "SomeName").2 [] [] =
      .ok [("foo", Value.vnone), ("bar", Value.vnone)] :=
  ⟨((C8_adhoc_factory (.commaString "foo, bar") "SomeName" (by decide)).2.2.1).trans
      (by decide),
   ((C8_adhoc_factory (.commaString "foo, bar") "SomeName" (by decide)).2.2.2).trans
      (by decide)⟩

/-- C9: on a frozen instance every write attempt, attribute-style or subscript-style
and whatever the target name, fails with an immutability error, and the stored values
are unchanged by any sequence of operations. -/
theorem C9_frozen_immutable (store : List (String × Value)) (k : String) (v : Value)
    (ops : List StructOp) :
    (∃ m, NamedFrozenStruct.setitem store k v = .error (.typeError m)) ∧
    (∃ m, NamedFrozenStruct.setattr store k v = .error (.typeError m)) ∧
    frozenRunOps store ops = store := by
  refine ⟨⟨_, rfl⟩, ⟨_, rfl⟩, ?_⟩
  induction ops with
  | nil => rfl
  | cons op rest ih =>
    have hstep : frozenApplyOp store op = store := by cases op <;> rfl
    calc frozenRunOps store (op :: rest)
        = frozenRunOps (frozenApplyOp store op) rest := rfl
      _ = frozenRunOps store rest := by rw [hstep]
      _ = store := ih

/-! Lemmas about `fillDefaults` and the factory-aware binder. -/

theorem fillDefaults_ctr_le (values_by_name : List (String × Value))
    (ms : List (String × NamedStructFieldF)) :
    ∀ ctr, ctr ≤ (fillDefaults values_by_name ctr ms).2 := by
  induction ms with
  | nil => intro ctr; exact Nat.le_refl ctr
  | cons m rest ih =>
    intro ctr
    simp only [fillDefaults]
    cases hg : dictGet values_by_name m.1 with
    | some v => exact ih ctr
    | none =>
      by_cases hf : m.2.has_factory
      · simp only [if_pos hf]
        exact Nat.le_trans (Nat.le_succ ctr) (ih (ctr + 1))
      · simp only [if_neg hf]
        exact ih ctr

theorem fillDefaults_keys (values_by_name : List (String × Value))
    (ms : List (String × NamedStructFieldF)) :
    ∀ ctr, dictKeys (fillDefaults values_by_name ctr ms).1 = dictKeys ms := by
  induction ms with
  | nil => intro ctr; rfl
  | cons m rest ih =>
    intro ctr
    simp only [fillDefaults]
    cases hg : dictGet values_by_name m.1 with
    | some v => simpa [dictKeys] using ih ctr
    | none =>
      by_cases hf : m.2.has_factory
      · simp only [if_pos hf]
        simpa [dictKeys] using ih (ctr + 1)
      · simp only [if_neg hf]
        simpa [dictKeys] using ih ctr

theorem fillDefaults_get (values_by_name : List (String × Value))
    (ms : List (String × NamedStructFieldF)) (f : String) (fld : NamedStructFieldF)
    (hnd : (dictKeys ms).Nodup) (hmem : (f, fld) ∈ ms)
    (hnone : dictGet values_by_name f = none) :
    ∀ ctr,
      (fld.has_factory = true →
        ∃ i, dictGet (fillDefaults values_by_name ctr ms).1 f = some (Value.obj i) ∧
          ctr ≤ i ∧ i < (fillDefaults values_by_name ctr ms).2) ∧
      (fld.has_factory = false →
        dictGet (fillDefaults values_by_name ctr ms).1 f = some fld.default) := by
  induction ms with
  | nil => exact absurd hmem (List.not_mem_nil _)
  | cons m rest ih =>
    intro ctr
    rcases List.mem_cons.mp hmem with he | hr
    · subst he
      simp only [fillDefaults]
      rw [hnone]
      constructor
      · intro hfac
        simp only [if_pos hfac]
        refine ⟨ctr, ?_, Nat.le_refl ctr, ?_⟩
        · simp [dictGet]
        · exact Nat.lt_of_lt_of_le (Nat.lt_succ_self ctr)
            (fillDefaults_ctr_le values_by_name rest (ctr + 1))
      · intro hfac
        rw [if_neg (by rw [hfac]; exact Bool.false_ne_true)]
        simp [dictGet]
    · have hfk : f ∈ dictKeys rest := by
        have := List.mem_map_of_mem Prod.fst hr
        simpa [dictKeys] using this
      have hne : ¬ m.1 = f := fun hc => (List.nodup_cons.mp hnd).1 (hc ▸ hfk)
      have ih2 := ih (List.nodup_cons.mp hnd).2 hr
      simp only [fillDefaults]
      cases hg : dictGet values_by_name m.1 with
      | some v =>
        constructor
        · intro hfac
          obtain ⟨i, hi1, hi2, hi3⟩ := (ih2 ctr).1 hfac
          exact ⟨i, by simpa [dictGet, hne] using hi1, hi2, hi3⟩
        · intro hfac
          simpa [dictGet, hne] using (ih2 ctr).2 hfac
      | none =>
        by_cases hf2 : m.2.has_factory
        · simp only [if_pos hf2]
          constructor
          · intro hfac
            obtain ⟨i, hi1, hi2, hi3⟩ := (ih2 (ctr + 1)).1 hfac
            exact ⟨i, by simpa [dictGet, hne] using hi1,
              Nat.le_trans (Nat.le_succ ctr) hi2, hi3⟩
          · intro hfac
            simpa [dictGet, hne] using (ih2 (ctr + 1)).2 hfac
        · simp only [if_neg hf2]
          constructor
          · intro hfac
            obtain ⟨i, hi1, hi2, hi3⟩ := (ih2 ctr).1 hfac
            exact ⟨i, by simpa [dictGet, hne] using hi1, hi2, hi3⟩
          · intro hfac
            simpa [dictGet, hne] using (ih2 ctr).2 hfac

theorem initF_ok_inv (members : List (String × NamedStructFieldF)) (args : List Value)
    (kwargs : List (String × Value)) (ctr : Nat) (p : List (String × Value) × Nat)
    (h : NamedStruct.initF members args kwargs ctr = .ok p) :
    ∃ values_by_name,
      addKwargs ((dictKeys members).zip args) kwargs = .ok values_by_name ∧
      firstUnknown (dictKeys members) values_by_name = none ∧
      p = fillDefaults values_by_name ctr members := by
  unfold NamedStruct.initF at h
  by_cases hlen : members.length < args.length
  · rw [if_pos hlen] at h
    exact Except.noConfusion h
  · rw [if_neg hlen] at h
    cases haddk : addKwargs ((dictKeys members).zip args) kwargs with
    | error e => rw [haddk] at h; exact Except.noConfusion h
    | ok vbn =>
      rw [haddk] at h
      dsimp only at h
      cases hf : firstUnknown (dictKeys members) vbn with
      | some bad => rw [hf] at h; exact Except.noConfusion h
      | none =>
        rw [hf] at h
        exact ⟨vbn, rfl, hf, (Except.ok.inj h).symm⟩

theorem addKwargs_keys_sub (kwargs : List (String × Value)) :
    ∀ acc values_by_name : List (String × Value),
      addKwargs acc kwargs = .ok values_by_name →
      ∀ x ∈ dictKeys values_by_name, x ∈ dictKeys acc ∨ x ∈ dictKeys kwargs := by
  induction kwargs with
  | nil =>
    intro acc vbn h x hx
    exact Or.inl ((Except.ok.inj h) ▸ hx)
  | cons kv rest ih =>
    intro acc vbn h x hx
    simp only [addKwargs] at h
    by_cases hk : kv.1 ∈ dictKeys acc
    · rw [if_pos hk] at h
      exact Except.noConfusion h
    · rw [if_neg hk] at h
      rcases ih (dictSet acc kv.1 kv.2) vbn h x hx with hacc | hrest
      · rw [dictSet_not_mem acc kv.1 kv.2 hk] at hacc
        simp only [dictKeys, List.map_append, List.mem_append, List.map_cons,
          List.map_nil, List.mem_singleton] at hacc
        rcases hacc with hacc | hacc
        · exact Or.inl hacc
        · exact Or.inr (by simp [dictKeys, hacc])
      · exact Or.inr (by simp [dictKeys]; exact Or.inr (by simpa [dictKeys] using hrest))

/-- C6: on every successful construction each schema field not supplied positionally or
by keyword gets its default: a `default_factory` field gets a freshly produced object,
so the factory-derived values of two successive constructions are never the same
object; a factory-less field gets its static default; and the instance has exactly one
value per schema field.  (Modelled from the spec: `default_factory` is absent from the
archived source; see `NamedStructFieldF` and `NamedStruct.initF`.) -/
theorem C6_defaults_and_factories (members : List (String × NamedStructFieldF))
    (args1 args2 : List Value) (kwargs1 kwargs2 : List (String × Value))
    (c0 : Nat) (s1 s2 : List (String × Value)) (c1 c2 : Nat)
    (hnd : (dictKeys members).Nodup)
    (h1 : NamedStruct.initF members args1 kwargs1 c0 = .ok (s1, c1))
    (h2 : NamedStruct.initF members args2 kwargs2 c1 = .ok (s2, c2))
    (f : String) (fld : NamedStructFieldF) (hmem : (f, fld) ∈ members)
    (habs1 : f ∉ dictKeys ((dictKeys members).zip args1) ∧ f ∉ dictKeys kwargs1)
    (habs2 : f ∉ dictKeys ((dictKeys members).zip args2) ∧ f ∉ dictKeys kwargs2) :
    dictKeys s1 = dictKeys members ∧
    (fld.has_factory = false → dictGet s1 f = some fld.default) ∧
    (fld.has_factory = true →
      ∃ w1 w2, dictGet s1 f = some w1 ∧ dictGet s2 f = some w2 ∧ w1 ≠ w2) := by
  obtain ⟨vbn1, ha1,  hf1, hp1⟩ := initF_ok_inv members args1 kwargs1 c0 (s1, c1) h1
  obtain ⟨vbn2, ha2, hf2, hp2⟩ := initF_ok_inv members args2 kwargs2 c1 (s2, c2) h2
  have hs1 : s1 = (fillDefaults vbn1 c0 members).1 := congrArg Prod.fst hp1
  have hc1 : c1 = (fillDefaults vbn1 c0 members).2 := congrArg Prod.snd hp1
  have hs2 : s2 = (fillDefaults vbn2 c1 members).1 := congrArg Prod.fst hp2
  have hn1 : dictGet vbn1 f = none := by
    rw [dictGet_eq_none]
    intro hx
    rcases addKwargs_keys_sub kwargs1 ((dictKeys members).zip args1) vbn1 ha1 f hx with
      h | h
    · exact habs1.1 h
    · exact habs1.2 h
  have hn2 : dictGet vbn2 f = none := by
    rw [dictGet_eq_none]
    intro hx
    rcases addKwargs_keys_sub kwargs2 ((dictKeys members).zip args2) vbn2 ha2 f hx with
      h | h
    · exact habs2.1 h
    · exact habs2.2 h
  refine ⟨?_, ?_, ?_⟩
  · rw [hs1]
    exact fillDefaults_keys vbn1 members c0
  · intro hfac
    rw [hs1]
    exact (fillDefaults_get vbn1 members f fld hnd hmem hn1 c0).2 hfac
  · intro hfac
    obtain ⟨i, hi1, -, hi3⟩ := (fillDefaults_get vbn1 members f fld hnd hmem hn1 c0).1 hfac
    obtain ⟨j, hj1, hj2, -⟩ := (fillDefaults_get vbn2 members f fld hnd hmem hn2 c1).1 hfac
    refine ⟨Value.obj i, Value.obj j, hs1 ▸ hi1, hs2 ▸ hj1, ?_⟩
    have hij : i < j := Nat.lt_of_lt_of_le (hc1 ▸ hi3) hj2
    intro hc
    have : i = j := by
      injection hc
    exact Nat.ne_of_lt hij this

def exMembersF : List (String × NamedStructFieldF) :=
  [("foo", ⟨Value.vnone, true⟩), ("bar", ⟨Value.str "d", false⟩)]

/-- Witness for C6: two successive no-argument constructions of a schema with a
factory field `foo` and a static-default field `bar` give `foo` values with distinct
object identities. -/
theorem C6_defaults_and_factories_witness :
    ∃ w1 w2,
      dictGet [("foo", Value.obj 0), ("bar", Value.str "d")] "foo" = some w1 ∧
      dictGet [("foo", Value.obj 1), ("bar", Value.str "d")] "foo" = some w2 ∧
      w1 ≠ w2 :=
  (C6_defaults_and_factories exMembersF [] [] [] [] 0
      [("foo", Value.obj 0), ("bar", Value.str "d")]
      [("foo", Value.obj 1), ("bar", Value.str "d")] 1 2
      (by decide) (by decide) (by decide)
      "foo" ⟨Value.vnone, true⟩ (by decide)
      ⟨by decide, by decide⟩ ⟨by decide, by decide⟩).2.2 rfl

end TriNamedStruct
